import Mathlib

/-!
# Verification of the portfolio optimization / risk-metrics engine

Shallow embedding of the numerical core of the repository
(`app.py` / `app_en.py`, identical code):

* `calculate_returns` (line 12–13): `prices.pct_change().dropna()`
* `portfolio_performance` (line 15–18): annualized mean return and volatility
* `negative_sharpe_ratio` (line 20–22): the optimizer objective
* `max_sharpe_ratio` (line 24–31): SLSQP call, modelled with an abstract solver
* `calculate_var` (line 33–34): per-asset empirical quantile
* the dashboard-level Sharpe computations (lines 54 and 146)

Exact rational arithmetic (`ℚ`) stands in for floating point throughout;
`Real.sqrt` is used where the code calls `np.sqrt`.  A return series is a
list of rows (one row per date), each row a list of per-asset returns; a
price series additionally carries `Option` to mark missing values (NaN).
-/

/-! ## Return / price data model -/

/-- Number of assets (columns) of a tabular series: the length of its first
row.  All rows are aligned in the data model, so any row would do. -/
def nAssets (R : List (List ℚ)) : ℕ :=
  (R.headD []).length

/-- Column `j` of a return series, as the list of that asset's returns in
date order. -/
def column (R : List (List ℚ)) (j : ℕ) : List ℚ :=
  R.map (fun row => row.getD j 0)

/-! ## Portfolio Statistics Evaluator (`portfolio_performance`, lines 15–18)

`returns.mean()` is the per-column arithmetic mean; `returns.cov()` is the
pandas sample covariance matrix (denominator `N - 1`, pandas default
`ddof=1`). -/

/-- Per-column mean, as computed by `returns.mean()`. -/
def colMean (R : List (List ℚ)) (j : ℕ) : ℚ :=
  (column R j).sum / (R.length : ℚ)

/-- Entry `(i, j)` of `returns.cov()`: sample covariance of columns `i` and
`j` with the `N - 1` denominator (pandas default `ddof=1`). -/
def sampleCov (R : List (List ℚ)) (i j : ℕ) : ℚ :=
  (R.map (fun row => (row.getD i 0 - colMean R i) * (row.getD j 0 - colMean R j))).sum
    / ((R.length : ℚ) - 1)

/-- Line 16: `np.sum(returns.mean() * weights) * 252` — elementwise product
of the column means with the weights, summed, then annualized. -/
def portfolio_return (weights : List ℚ) (R : List (List ℚ)) : ℚ :=
  ((List.range (nAssets R)).map (fun j => colMean R j * weights.getD j 0)).sum * 252

/-- Line 17, inside the square root:
`np.dot(weights.T, np.dot(returns.cov() * 252, weights))`.  The inner dot
is the matrix–vector product of the annualized covariance matrix with the
weights; the outer dot contracts with the weights again. -/
def portfolio_variance (weights : List ℚ) (R : List (List ℚ)) : ℚ :=
  ((List.range (nAssets R)).map (fun i =>
    weights.getD i 0 *
      ((List.range (nAssets R)).map (fun j =>
        sampleCov R i j * 252 * weights.getD j 0)).sum)).sum

/-- Lines 15–18: `portfolio_performance(weights, returns)` returns the pair
`(portfolio_return, portfolio_std)` with `portfolio_std = np.sqrt(...)`. -/
noncomputable def portfolio_performance (weights : List ℚ) (R : List (List ℚ)) :
    ℚ × ℝ :=
  (portfolio_return weights R, Real.sqrt (portfolio_variance weights R))

/-! ### Spec-side formulations for claim C1

These restate the spec's formulas in its own shape: the annualized return as
`sum(weights[i] * mean(returns[:,i])) * 252`, and the variance as the
quadratic form `w^T (C * 252) w` written as an explicit double sum with both
weight factors inside. -/

/-- Spec formula: `annualizedReturn = sum(weights[i] * mean(returns[:,i])) * 252`. -/
def annualizedReturn_spec (weights : List ℚ) (R : List (List ℚ)) : ℚ :=
  ((List.range (nAssets R)).map (fun i => weights.getD i 0 * colMean R i)).sum * 252

/-- Spec formula: the quadratic form `w^T (C * 252) w`, with `C` the sample
covariance matrix, as the double sum of `w_i * (C_ij * 252) * w_j`. -/
def annualizedQuadForm_spec (weights : List ℚ) (R : List (List ℚ)) : ℚ :=
  ((List.range (nAssets R)).map (fun i =>
    ((List.range (nAssets R)).map (fun j =>
      weights.getD i 0 * (sampleCov R i j * 252) * weights.getD j 0)).sum)).sum

/-- C1: `portfolio_performance` returns the pair
`(sum_i w_i * mean_i * 252, sqrt(w^T (C * 252) w))` with `C` the sample
(`N-1` denominator) covariance matrix of the return columns. -/
theorem portfolio_performance_eq_spec (weights : List ℚ) (R : List (List ℚ))
    (hR : R ≠ []) (hw : weights.length = nAssets R) :
    portfolio_performance weights R =
      (annualizedReturn_spec weights R,
        Real.sqrt (annualizedQuadForm_spec weights R)) := by
  have hret : portfolio_return weights R = annualizedReturn_spec weights R := by
    unfold portfolio_return annualizedReturn_spec
    exact congrArg (· * 252)
      (congrArg List.sum (List.map_congr_left fun j _ => mul_comm _ _))
  have hvar : portfolio_variance weights R = annualizedQuadForm_spec weights R := by
    unfold portfolio_variance annualizedQuadForm_spec
    refine congrArg List.sum (List.map_congr_left fun i _ => ?_)
    rw [← List.sum_map_mul_left]
    exact congrArg List.sum (List.map_congr_left fun j _ => by ring)
  unfold portfolio_performance
  rw [hret, hvar]

/-- C1 witness: the evaluator/spec agreement at a concrete two-asset,
two-date return series with equal weights. -/
theorem portfolio_performance_eq_spec_witness :
    portfolio_performance [1/2, 1/2] [[1/100, 2/100], [3/100, 1/100]] =
      (annualizedReturn_spec [1/2, 1/2] [[1/100, 2/100], [3/100, 1/100]],
        Real.sqrt (annualizedQuadForm_spec [1/2, 1/2] [[1/100, 2/100], [3/100, 1/100]])) :=
  portfolio_performance_eq_spec _ _ (by simp) rfl

/-! ## Sharpe-ratio computations (lines 20–22, 54, 146) -/

/-- Line 54 (`opt_sharpe`) and line 146 (`opt_sharpe_adjusted`): the Sharpe
ratio `(opt_return - risk_free_rate) / opt_std` of the portfolio whose
statistics `portfolio_performance` computed.  Real division stands in for
float division; the zero-volatility IEEE edge case is modelled separately
below. -/
noncomputable def sharpe_ratio (weights : List ℚ) (R : List (List ℚ))
    (risk_free_rate : ℝ) : ℝ :=
  (((portfolio_performance weights R).1 : ℝ) - risk_free_rate) /
    (portfolio_performance weights R).2

/-- C8: for a fixed weight vector with strictly positive annualized
volatility and a fixed return series, the Sharpe ratio is strictly
decreasing in the risk-free rate. -/
theorem sharpe_ratio_strict_anti (weights : List ℚ) (R : List (List ℚ))
    (r₁ r₂ : ℝ) (hstd : 0 < (portfolio_performance weights R).2)
    (h12 : r₁ < r₂) :
    sharpe_ratio weights R r₂ < sharpe_ratio weights R r₁ := by
  unfold sharpe_ratio
  have hnum : ((portfolio_performance weights R).1 : ℝ) - r₂ <
      ((portfolio_performance weights R).1 : ℝ) - r₁ := by linarith
  exact div_lt_div_of_pos_right hnum hstd

/-- C8 witness: a single-asset series with positive variance; raising the
rate from 1% to 2% strictly lowers the Sharpe ratio. -/
theorem sharpe_ratio_strict_anti_witness :
    sharpe_ratio [1] [[0], [1/10]] (2/100) < sharpe_ratio [1] [[0], [1/10]] (1/100) := by
  apply sharpe_ratio_strict_anti
  · show 0 < Real.sqrt ((portfolio_variance [1] [[0], [1/10]] : ℚ) : ℝ)
    apply Real.sqrt_pos.mpr
    have hv : portfolio_variance [1] [[0], [1/10]] = 63/50 := by
      norm_num [portfolio_variance, sampleCov, colMean, column, nAssets,
        List.range_succ, List.range_zero]
    rw [hv]
    norm_num
  · norm_num

/-! ## Return Calculator (`calculate_returns`, lines 12–13)

`prices.pct_change()` first applies its default `fill_method='pad'`: every
missing price is replaced by the most recent preceding price of the same
asset (leading missing values stay NaN).  On the padded data it then
produces, for each date after the first, the elementwise change
`(price[t] - price[t-1]) / price[t-1]`; the first date's row is all NaN
(there is no prior price), and NaN propagates through the arithmetic — so
after padding, NaN survives only in the first row and in assets' leading
missing stretches.  `.dropna()` then removes every row that still contains
a NaN.  Missing values are modelled as `none`. -/

/-- One step of forward filling: the price row of one date after
`fillna(method='pad')`, given the already-padded previous row `last` —
a present price is kept, a missing one is replaced by the padded previous
value for that asset. -/
def padRow (last row : List (Option ℚ)) : List (Option ℚ) :=
  List.zipWith (fun l c =>
    match c with
    | some v => some v
    | none => l) last row

/-- Forward filling of the rows after the first, threading the padded
previous row. -/
def ffillFrom (last : List (Option ℚ)) :
    List (List (Option ℚ)) → List (List (Option ℚ))
  | [] => []
  | row :: rest => padRow last row :: ffillFrom (padRow last row) rest

/-- `prices.fillna(method='pad')` — `pct_change`'s default pre-step: the
first row has nothing above it and is unchanged; every later row takes the
padded previous row's value wherever its own is missing. -/
def ffill (prices : List (List (Option ℚ))) : List (List (Option ℚ)) :=
  match prices with
  | [] => []
  | p :: ps => p :: ffillFrom p ps

/-- One row of the percent change: elementwise `(cur - prev) / prev` over
the padded data, with NaN (`none`) produced whenever either operand is
still NaN after padding. -/
def pctRow (prev cur : List (Option ℚ)) : List (Option ℚ) :=
  List.zipWith (fun p c =>
    match p, c with
    | some p, some c => some ((c - p) / p)
    | _, _ => none) prev cur

/-- `prices.pct_change()` (default `fill_method='pad'`): forward-fill, then
an all-NaN first row followed by the row-over-row percent changes of the
padded data. -/
def pct_change (prices : List (List (Option ℚ))) : List (List (Option ℚ)) :=
  match ffill prices with
  | [] => []
  | p :: ps => p.map (fun _ => none) :: List.zipWith pctRow (p :: ps) ps

/-- A row survives `dropna()` exactly when it contains no NaN; in that case
this extracts its values. -/
def rowDefined : List (Option ℚ) → Option (List ℚ)
  | [] => some []
  | none :: _ => none
  | some x :: rest => (rowDefined rest).map (x :: ·)

/-- `.dropna()`: keep exactly the rows with no NaN entry — a single NaN
removes the whole date row, for every asset jointly. -/
def dropna (rows : List (List (Option ℚ))) : List (List ℚ) :=
  rows.filterMap rowDefined

/-- Lines 12–13: `calculate_returns(prices) = prices.pct_change().dropna()`. -/
def calculate_returns (prices : List (List (Option ℚ))) : List (List ℚ) :=
  dropna (pct_change prices)

/-- A fully-defined price series (no missing prices). -/
def definedPrices (P : List (List ℚ)) : List (List (Option ℚ)) :=
  P.map (List.map some)

theorem padRow_map_some (last : List (Option ℚ)) (row : List ℚ)
    (h : row.length ≤ last.length) :
    padRow last (row.map some) = row.map some := by
  induction row generalizing last with
  | nil => simp [padRow]
  | cons r rs ih =>
    cases last with
    | nil => simp at h
    | cons l ls =>
      show (some r) :: padRow ls (rs.map some) = _
      rw [ih ls (by simpa using h)]
      rfl

theorem ffillFrom_defined (m : ℕ) :
    ∀ (P : List (List ℚ)), (∀ row ∈ P, row.length = m) →
      ∀ (last : List (Option ℚ)), m ≤ last.length →
        ffillFrom last (definedPrices P) = definedPrices P := by
  intro P
  induction P with
  | nil => intro _ last _; rfl
  | cons p ps ih =>
    intro halign last hlast
    have hp : p.length = m := halign p (List.mem_cons_self p ps)
    show padRow last (p.map some) ::
      ffillFrom (padRow last (p.map some)) (definedPrices ps) = _
    rw [padRow_map_some last p (by omega)]
    rw [ih (fun row hr => halign row (List.mem_cons_of_mem _ hr)) (p.map some)
      (by simp [hp])]
    rfl

/-- Forward filling leaves a fully-defined aligned price series unchanged. -/
theorem ffill_defined (P : List (List ℚ)) (m : ℕ)
    (halign : ∀ row ∈ P, row.length = m) :
    ffill (definedPrices P) = definedPrices P := by
  cases P with
  | nil => rfl
  | cons p ps =>
    show (p.map some) :: ffillFrom (p.map some) (definedPrices ps) = _
    rw [ffillFrom_defined m ps (fun row hr => halign row (List.mem_cons_of_mem _ hr))
      (p.map some) (by simp [halign p (List.mem_cons_self p ps)])]
    rfl

theorem rowDefined_map_some (h : List ℚ) : rowDefined (h.map some) = some h := by
  induction h with
  | nil => rfl
  | cons x xs ih => simp [rowDefined, ih]

theorem rowDefined_const_none (p : List (Option ℚ)) (hp : p ≠ []) :
    rowDefined (p.map (fun _ => none)) = none := by
  cases p with
  | nil => exact absurd rfl hp
  | cons x xs => rfl

theorem pctRow_map_some (a b : List ℚ) :
    pctRow (a.map some) (b.map some) =
      (List.zipWith (fun p c => (c - p) / p) a b).map some := by
  induction a generalizing b with
  | nil => simp [pctRow]
  | cons x xs ih =>
    cases b with
    | nil => simp [pctRow]
    | cons y ys => simpa [pctRow] using ih ys

theorem dropna_pctRow_defined (A B : List (List ℚ)) :
    dropna (List.zipWith pctRow (definedPrices A) (definedPrices B)) =
      List.zipWith (fun prev cur => List.zipWith (fun p c => (c - p) / p) prev cur)
        A B := by
  induction A generalizing B with
  | nil => simp [definedPrices, dropna]
  | cons a as ih =>
    cases B with
    | nil => simp [definedPrices, dropna]
    | cons b bs =>
      have hhead : rowDefined (pctRow (a.map some) (b.map some)) =
          some (List.zipWith (fun p c => (c - p) / p) a b) := by
        rw [pctRow_map_some, rowDefined_map_some]
      have hcons : dropna (pctRow (a.map some) (b.map some) ::
            List.zipWith pctRow (definedPrices as) (definedPrices bs)) =
          List.zipWith (fun p c => (c - p) / p) a b ::
            dropna (List.zipWith pctRow (definedPrices as) (definedPrices bs)) := by
        unfold dropna
        rw [List.filterMap_cons, hhead]
      show dropna (pctRow (a.map some) (b.map some) ::
        List.zipWith pctRow (definedPrices as) (definedPrices bs)) = _
      rw [hcons, ih bs]
      rfl

/-- Structure of the Return Calculator on fully-defined aligned prices:
padding changes nothing, the first (all-NaN) row is dropped and every
remaining row is the elementwise simple return of consecutive dates. -/
theorem calculate_returns_defined (P : List (List ℚ)) (m : ℕ)
    (halign : ∀ row ∈ P, row.length = m) (hm : 1 ≤ m) :
    calculate_returns (definedPrices P) =
      List.zipWith (fun prev cur => List.zipWith (fun p c => (c - p) / p) prev cur)
        P P.tail := by
  cases P with
  | nil => rfl
  | cons p ps =>
    have hne : p.map some ≠ [] := by
      have hp : p.length = m := halign p (List.mem_cons_self p ps)
      intro hnil
      rw [List.map_eq_nil_iff] at hnil
      rw [hnil] at hp
      simp at hp
      omega
    have hpc : pct_change (definedPrices (p :: ps)) =
        ((p.map some).map (fun _ => none)) ::
          List.zipWith pctRow (definedPrices (p :: ps)) (definedPrices ps) := by
      unfold pct_change
      rw [ffill_defined (p :: ps) m halign]
      rfl
    have hdrop : calculate_returns (definedPrices (p :: ps)) =
        dropna (List.zipWith pctRow (definedPrices (p :: ps)) (definedPrices ps)) := by
      show dropna (pct_change (definedPrices (p :: ps))) = _
      rw [hpc]
      show List.filterMap rowDefined (((p.map some).map (fun _ => none)) ::
        List.zipWith pctRow (definedPrices (p :: ps)) (definedPrices ps)) = _
      rw [List.filterMap_cons, rowDefined_const_none _ hne]
      rfl
    rw [hdrop, dropna_pctRow_defined]
    rfl

theorem zipWith_getD {α β γ : Type} (f : α → β → γ) (d : γ) (da : α) (db : β) :
    ∀ (as : List α) (bs : List β) (t : ℕ), t < as.length → t < bs.length →
      (List.zipWith f as bs).getD t d = f (as.getD t da) (bs.getD t db) := by
  intro as
  induction as with
  | nil => intro bs t h1 _; simp at h1
  | cons a as ih =>
    intro bs t h1 h2
    cases bs with
    | nil => simp at h2
    | cons b bs =>
      cases t with
      | zero => rfl
      | succ t =>
        have h1' : t < as.length := by simpa using h1
        have h2' : t < bs.length := by simpa using h2
        show (List.zipWith f as bs).getD t d = f (as.getD t da) (bs.getD t db)
        exact ih bs t h1' h2'

theorem tail_getD {α : Type} (l : List α) (t : ℕ) (d : α) :
    l.tail.getD t d = l.getD (t + 1) d := by
  cases l <;> rfl

/-- C2 (amended): on a *fully-defined*, aligned price series with at least
two dates and at least one asset, the Return Calculator yields exactly
`n - 1` rows, and the entry for asset `j` at (post-drop) position `t` is
the simple return `(price[t+1][j] - price[t][j]) / price[t][j]`.  (The
original claim's joint-drop conjunct for rows with missing values is
refuted below: `pct_change`'s default pad fill zero-fills interior missing
prices instead of dropping their dates.) -/
theorem calculate_returns_spec (P : List (List ℚ)) (m : ℕ)
    (halign : ∀ row ∈ P, row.length = m) (hm : 1 ≤ m) (hn : 2 ≤ P.length) :
    (calculate_returns (definedPrices P)).length = P.length - 1 ∧
      ∀ t j, t + 1 < P.length → j < m →
        ((calculate_returns (definedPrices P)).getD t []).getD j 0 =
          ((P.getD (t + 1) []).getD j 0 - (P.getD t []).getD j 0) /
            (P.getD t []).getD j 0 := by
  rw [calculate_returns_defined P m halign hm]
  constructor
  · rw [List.length_zipWith, List.length_tail]
    exact Nat.min_eq_right (Nat.sub_le _ _)
  · intro t j ht hj
    have ht1 : t < P.length := by omega
    have ht2 : t < P.tail.length := by rw [List.length_tail]; omega
    rw [zipWith_getD _ [] [] [] P P.tail t ht1 ht2, tail_getD]
    have hmt : (P.getD t []).length = m := by
      rw [List.getD_eq_getElem _ _ ht1]
      exact halign _ (List.getElem_mem ht1)
    have ht1' : t + 1 < P.length := ht
    have hmt1 : (P.getD (t + 1) []).length = m := by
      rw [List.getD_eq_getElem _ _ ht1']
      exact halign _ (List.getElem_mem ht1')
    rw [zipWith_getD _ 0 0 0 (P.getD t []) (P.getD (t + 1) []) j
      (by omega) (by omega)]

/-- C2 witness: three fully-defined dates of a single asset produce exactly
two return rows, the first being `(101 - 100) / 100`. -/
theorem calculate_returns_spec_witness :
    (calculate_returns (definedPrices [[100], [101], [102]])).length = 2 ∧
      ((calculate_returns (definedPrices [[100], [101], [102]])).getD 0 []).getD 0 0 =
        (101 - 100) / 100 := by
  obtain ⟨h1, h2⟩ := calculate_returns_spec [[100], [101], [102]] 1
    (by intro row hr; fin_cases hr <;> rfl) (by norm_num) (by norm_num)
  exact ⟨h1, by simpa using h2 0 0 (by norm_num) (by norm_num)⟩

/-- C2 counterexample: the date row for the second date has a missing
price for asset B, yet it is *not* removed: `pct_change`'s default
`fill_method='pad'` forward-fills B's price (200) before differencing, so
that date survives `dropna` with a zero-filled `0.0` return for B (and the
next date's B return is computed against the padded 200) — contradicting
"removed for every asset jointly (dropped, not zero-filled)". -/
theorem calculate_returns_missing_not_dropped :
    calculate_returns
        [[some 100, some 200], [some 110, none], [some 121, some 220]] =
      [[1/10, 0], [1/10, 1/10]] := by
  norm_num [calculate_returns, pct_change, ffill, ffillFrom, padRow, pctRow,
    dropna, rowDefined, List.filterMap_cons, List.filterMap_nil]

/-- C6 (amended): a price series with fewer than two date rows yields an
*empty* return series — no error is raised; `pct_change` leaves at most one
all-NaN row and `dropna` removes it. -/
theorem calculate_returns_short_input (prices : List (List (Option ℚ)))
    (hlen : prices.length ≤ 1) (hrows : ∀ row ∈ prices, row ≠ []) :
    calculate_returns prices = [] := by
  cases prices with
  | nil => rfl
  | cons p ps =>
    cases ps with
    | cons q qs => simp at hlen
    | nil =>
      show List.filterMap rowDefined [p.map (fun _ => none)] = []
      rw [List.filterMap_cons, rowDefined_const_none p
        (hrows p (List.mem_cons_self p []))]
      rfl

/-- C6 counterexample: on the one-row price series `[[100]]` the code
returns the empty return series instead of failing — there is no
`InsufficientDataError` (or any other error) in its path. -/
theorem calculate_returns_one_row_returns_value :
    calculate_returns [[some 100]] = [] := rfl

/-- C6 witness: the amended behavior at a one-row, two-asset series with a
missing second price. -/
theorem calculate_returns_short_input_witness :
    calculate_returns [[some 100, none]] = [] :=
  calculate_returns_short_input [[some 100, none]] (by norm_num)
    (by intro row hr; fin_cases hr <;> simp)

/-! ## Risk Estimator (`calculate_var`, lines 33–34)

`returns.quantile(confidence_level, axis=0)` computes one empirical
quantile per asset column with pandas' default `linear` interpolation:
with the column sorted ascending as `s₀ ≤ … ≤ s_{n-1}` and
`h = q * (n - 1)`, the value is `s_⌊h⌋ + (h - ⌊h⌋) * (s_{⌊h⌋+1} - s_⌊h⌋)`.
numpy validates `0 ≤ q ≤ 1` first and raises `ValueError` otherwise. -/

/-- The linear-interpolation empirical quantile of one column. -/
def quantile (xs : List ℚ) (q : ℚ) : ℚ :=
  let s := List.insertionSort (· ≤ ·) xs
  let h : ℚ := q * ((xs.length : ℚ) - 1)
  let k : ℕ := (⌊h⌋).toNat
  s.getD k 0 + (h - (k : ℚ)) * (s.getD (k + 1) 0 - s.getD k 0)

/-- Lines 33–34: `calculate_var(returns, confidence_level)` =
`returns.quantile(confidence_level, axis=0)`, with numpy's `ValueError` on
a percentile outside `[0, 1]` modelled as the error branch. -/
def calculate_var (returns : List (List ℚ)) (confidence_level : ℚ := 1/20) :
    Except String (List ℚ) :=
  if confidence_level < 0 ∨ 1 < confidence_level then
    .error "percentiles should all be in the interval [0, 1]"
  else
    .ok ((List.range (nAssets returns)).map
      (fun j => quantile (column returns j) confidence_level))

/-- C7 (amended): `calculate_var` fails exactly on a confidence level
outside the closed interval `[0, 1]`; for any level inside `[0, 1]`
(including the endpoints) it returns one quantile per asset. -/
theorem calculate_var_range (R : List (List ℚ)) (q : ℚ) :
    (q < 0 ∨ 1 < q →
      calculate_var R q = .error "percentiles should all be in the interval [0, 1]") ∧
    (0 ≤ q → q ≤ 1 →
      ∃ v, calculate_var R q = .ok v ∧ v.length = nAssets R) := by
  constructor
  · intro h
    unfold calculate_var
    rw [if_pos h]
  · intro h0 h1
    refine ⟨(List.range (nAssets R)).map (fun j => quantile (column R j) q), ?_, ?_⟩
    · unfold calculate_var
      rw [if_neg (by push_neg; exact ⟨h0, h1⟩)]
    · rw [List.length_map, List.length_range]

/-- C7 witness: at level `3/2` the call fails; at level `1/2` it returns a
one-entry quantile vector for a one-asset series. -/
theorem calculate_var_range_witness :
    calculate_var [[1], [2]] (3/2) =
        .error "percentiles should all be in the interval [0, 1]" ∧
      ∃ v, calculate_var [[1], [2]] (1/2) = .ok v ∧ v.length = nAssets [[1], [2]] :=
  ⟨(calculate_var_range [[1], [2]] (3/2)).1 (by norm_num),
    (calculate_var_range [[1], [2]] (1/2)).2 (by norm_num) (by norm_num)⟩

/-- C7 counterexample: the claim says any confidence level outside the open
interval `(0, 1)` fails, but at level `0` — outside `(0, 1)` — the code
happily returns the per-asset column minimum. -/
theorem calculate_var_zero_returns_value :
    calculate_var [[1], [2]] 0 = .ok [1] := by
  norm_num [calculate_var, quantile, column, nAssets,
    List.insertionSort, List.orderedInsert, List.range_succ, List.range_zero]

theorem getD_map_range {α : Type} (f : ℕ → α) (n j : ℕ) (d : α) (hj : j < n) :
    ((List.range n).map f).getD j d = f j := by
  rw [List.getD_eq_getElem _ _ (by simpa using hj)]
  simp

/-- C10: inside `(0, 1)`, `calculate_var` computes each asset's entry by
linear interpolation between order statistics: for any ascending
rearrangement `s` of the asset's return column, with `h = q * (n - 1)` and
`k = ⌊h⌋`, the entry is `s_k + (h - k) * (s_(k+1) - s_k)`. -/
theorem calculate_var_linear_interp (R : List (List ℚ)) (q : ℚ) (j : ℕ)
    (hj : j < nAssets R) (hq0 : 0 < q) (hq1 : q < 1)
    (hn : 1 ≤ (column R j).length) (s : List ℚ)
    (hperm : s.Perm (column R j)) (hsort : s.Sorted (· ≤ ·)) :
    ∃ v, calculate_var R q = .ok v ∧
      v.getD j 0 =
        s.getD (⌊q * ((s.length : ℚ) - 1)⌋).toNat 0 +
          (q * ((s.length : ℚ) - 1) - ((⌊q * ((s.length : ℚ) - 1)⌋).toNat : ℚ)) *
            (s.getD ((⌊q * ((s.length : ℚ) - 1)⌋).toNat + 1) 0 -
              s.getD (⌊q * ((s.length : ℚ) - 1)⌋).toNat 0) := by
  have hs : s = List.insertionSort (· ≤ ·) (column R j) := by
    refine List.eq_of_perm_of_sorted ?_ hsort (List.sorted_insertionSort _ _)
    exact hperm.trans (List.perm_insertionSort _ _).symm
  have hslen : s.length = (column R j).length := hperm.length_eq
  refine ⟨(List.range (nAssets R)).map (fun i => quantile (column R i) q), ?_, ?_⟩
  · unfold calculate_var
    rw [if_neg (by push_neg; exact ⟨le_of_lt hq0, le_of_lt hq1⟩)]
  · rw [getD_map_range _ _ _ _ hj, hslen, hs]
    rfl

/-- C10 witness: a one-asset, three-date series; at `q = 1/2` the sorted
column is `[0, 1, 3]`, `h = 1`, `k = 1`, and the quantile is the median. -/
theorem calculate_var_linear_interp_witness :
    ∃ v, calculate_var [[1], [3], [0]] (1/2) = .ok v ∧
      v.getD 0 0 =
        ([0, 1, 3] : List ℚ).getD ((⌊(1/2 : ℚ) * ((([0, 1, 3] : List ℚ).length : ℚ) - 1)⌋).toNat) 0 +
          ((1/2 : ℚ) * ((([0, 1, 3] : List ℚ).length : ℚ) - 1) - (((⌊(1/2 : ℚ) * ((([0, 1, 3] : List ℚ).length : ℚ) - 1)⌋).toNat) : ℚ)) *
            (([0, 1, 3] : List ℚ).getD (((⌊(1/2 : ℚ) * ((([0, 1, 3] : List ℚ).length : ℚ) - 1)⌋).toNat) + 1) 0 - ([0, 1, 3] : List ℚ).getD ((⌊(1/2 : ℚ) * ((([0, 1, 3] : List ℚ).length : ℚ) - 1)⌋).toNat) 0) :=
  calculate_var_linear_interp [[1], [3], [0]] (1/2) 0 (by decide) (by norm_num)
    (by norm_num) (by decide) [0, 1, 3] (by decide) (by decide)

/-! ## Zero-volatility Sharpe edge case (lines 20–22 and 54)

The code divides by `p_std` with no guard.  In IEEE-754 arithmetic (numpy
floats) that division never traps: dividing a finite numerator by `+0.0`
(`np.sqrt(0.0)` is `+0.0`) yields `+inf` for a positive numerator, `-inf`
for a negative one, and NaN for `0.0 / +0.0`.  The model keeps exact
rational finite values and adds the three special values. -/

/-- An IEEE-754 result value: finite (exact rational), a signed infinity,
or NaN. -/
inductive FloatVal where
  | val : ℚ → FloatVal
  | posInf : FloatVal
  | negInf : FloatVal
  | nan : FloatVal
deriving DecidableEq

/-- IEEE float division `x / y` for finite `x` and finite `y ≥ 0` — the
divisor at lines 22/54 is a square root, so `+0.0` when zero.  Never
traps. -/
def fdiv (x y : ℚ) : FloatVal :=
  if y = 0 then
    if 0 < x then .posInf else if x < 0 then .negInf else .nan
  else
    .val (x / y)

/-- Line 54: `opt_sharpe = (opt_return - risk_free_rate) / opt_std` at
float level. -/
def opt_sharpe_float (opt_return opt_std risk_free_rate : ℚ) : FloatVal :=
  fdiv (opt_return - risk_free_rate) opt_std

/-- Line 22: `-(p_return - risk_free_rate) / p_std` at float level. -/
def negative_sharpe_ratio_float (p_return p_std risk_free_rate : ℚ) : FloatVal :=
  fdiv (-(p_return - risk_free_rate)) p_std

theorem fdiv_zero_pos {x : ℚ} (h : 0 < x) : fdiv x 0 = .posInf := by
  unfold fdiv
  rw [if_pos rfl, if_pos h]

theorem fdiv_zero_neg {x : ℚ} (h : x < 0) : fdiv x 0 = .negInf := by
  unfold fdiv
  rw [if_pos rfl, if_neg (by linarith), if_pos h]

theorem fdiv_zero_zero {x : ℚ} (h : x = 0) : fdiv x 0 = .nan := by
  unfold fdiv
  rw [if_pos rfl, if_neg (by simp [h]), if_neg (by simp [h])]

/-- C4 counterexample: with volatility exactly `0` and excess return
exactly `0` the displayed Sharpe ratio is NaN — not the `0` the claim
requires. -/
theorem sharpe_zero_vol_counterexample :
    opt_sharpe_float (1/100) 0 (1/100) = .nan ∧ FloatVal.nan ≠ .val 0 := by
  constructor
  · exact fdiv_zero_zero (by norm_num)
  · intro h
    exact FloatVal.noConfusion h

/-- C4 (amended): at zero volatility the unguarded IEEE division yields
`+inf` for positive excess return and `-inf` for negative excess return
(the objective at line 22 gets the negated values), but NaN — not `0` —
when the excess return is zero; no division fault occurs in any case. -/
theorem sharpe_zero_vol_guarded (p_return risk_free_rate : ℚ) :
    (0 < p_return - risk_free_rate →
      opt_sharpe_float p_return 0 risk_free_rate = .posInf ∧
        negative_sharpe_ratio_float p_return 0 risk_free_rate = .negInf) ∧
    (p_return - risk_free_rate < 0 →
      opt_sharpe_float p_return 0 risk_free_rate = .negInf ∧
        negative_sharpe_ratio_float p_return 0 risk_free_rate = .posInf) ∧
    (p_return - risk_free_rate = 0 →
      opt_sharpe_float p_return 0 risk_free_rate = .nan ∧
        negative_sharpe_ratio_float p_return 0 risk_free_rate = .nan) := by
  refine ⟨fun h => ⟨?_, ?_⟩, fun h => ⟨?_, ?_⟩, fun h => ⟨?_, ?_⟩⟩
  · exact fdiv_zero_pos h
  · exact fdiv_zero_neg (by linarith)
  · exact fdiv_zero_neg h
  · exact fdiv_zero_pos (by linarith)
  · exact fdiv_zero_zero h
  · exact fdiv_zero_zero (by rw [h, neg_zero])

/-- C4 witness: the three zero-volatility cases at concrete returns and a
1% risk-free rate. -/
theorem sharpe_zero_vol_guarded_witness :
    opt_sharpe_float (2/100) 0 (1/100) = .posInf ∧
      opt_sharpe_float 0 0 (1/100) = .negInf ∧
      opt_sharpe_float (1/100) 0 (1/100) = .nan :=
  ⟨((sharpe_zero_vol_guarded (2/100) (1/100)).1 (by norm_num)).1,
    ((sharpe_zero_vol_guarded 0 (1/100)).2.1 (by norm_num)).1,
    ((sharpe_zero_vol_guarded (1/100) (1/100)).2.2 (by norm_num)).1⟩

/-! ## Sharpe Optimizer (`max_sharpe_ratio`, lines 24–31, and line 50)

`scipy.optimize.minimize(..., method='SLSQP', ...)` is external library
code; it is modelled as an abstract solver receiving exactly what the code
passes it: the objective, the uniform initial guess
`num_assets * [1. / num_assets]`, the `(0, 1)` bound per asset and the
equality constraint `sum(x) - 1`.  The code returns whatever
`OptimizeResult` the solver produces — it never inspects `success` or
`status` and never raises. -/

/-- The fields of `scipy.optimize.OptimizeResult` the program could
consult: the final iterate `x`, the convergence flag `success` and the
solver `status` code. -/
structure OptimizeResult where
  x : List ℚ
  success : Bool
  status : ℕ
deriving DecidableEq

/-- The shape of `scipy.optimize.minimize` as invoked at lines 29–30:
objective, initial guess, bounds, equality-constraint function. -/
def Minimizer : Type :=
  (List ℚ → ℝ) → List ℚ → List (ℚ × ℚ) → (List ℚ → ℚ) → OptimizeResult

/-- Lines 20–22: `negative_sharpe_ratio(weights, returns,
risk_free_rate=0.01)`; the default argument mirrors the Python default. -/
noncomputable def negative_sharpe_ratio (weights : List ℚ) (returns : List (List ℚ))
    (risk_free_rate : ℚ := 1/100) : ℝ :=
  -(((portfolio_performance weights returns).1 : ℝ) - (risk_free_rate : ℝ)) /
    (portfolio_performance weights returns).2

/-- Lines 24–31: `max_sharpe_ratio(returns)` builds the uniform initial
guess, the `(0, 1)` bounds and the full-investment equality constraint, and
returns the solver's result object unchanged.  `args=(returns,)` supplies
only the return series, so the objective keeps its default
`risk_free_rate = 0.01`. -/
noncomputable def max_sharpe_ratio (minimize : Minimizer)
    (returns : List (List ℚ)) : OptimizeResult :=
  minimize (fun w => negative_sharpe_ratio w returns)
    (List.replicate (nAssets returns) (1 / (nAssets returns : ℚ)))
    (List.replicate (nAssets returns) (0, 1))
    (fun x => x.sum - 1)

/-- Line 50: `optimal_weights = optimal_portfolio.x` — the weight vector is
read off the result object with no convergence check. -/
noncomputable def optimal_weights (minimize : Minimizer)
    (returns : List (List ℚ)) : List ℚ :=
  (max_sharpe_ratio minimize returns).x

/-- C5 (amended): when the solver reports non-convergence
(`success = false`), `max_sharpe_ratio` still returns the raw result object
and line 50 silently extracts the unconverged iterate; no
`OptimizationFailedError` (or any exception) exists in this path. -/
theorem max_sharpe_ratio_silent_on_failure (minimize : Minimizer)
    (R : List (List ℚ))
    (hfail : (minimize (fun w => negative_sharpe_ratio w R)
        (List.replicate (nAssets R) (1 / (nAssets R : ℚ)))
        (List.replicate (nAssets R) (0, 1))
        (fun x => x.sum - 1)).success = false) :
    (max_sharpe_ratio minimize R).success = false ∧
      optimal_weights minimize R =
        (minimize (fun w => negative_sharpe_ratio w R)
          (List.replicate (nAssets R) (1 / (nAssets R : ℚ)))
          (List.replicate (nAssets R) (0, 1))
          (fun x => x.sum - 1)).x :=
  ⟨hfail, rfl⟩

/-- A solver run that hits its iteration budget: SLSQP status 9
("Iteration limit reached"), `success = False`, last iterate `[1, 0]`. -/
def failingSolver : Minimizer :=
  fun _ _ _ _ => ⟨[1, 0], false, 9⟩

/-- C5 counterexample: with a non-converged solver outcome the operation
returns the unconverged result object — including its weight vector — to
the caller instead of raising anything. -/
theorem max_sharpe_ratio_failure_counterexample :
    max_sharpe_ratio failingSolver [[1/100], [2/100]] = ⟨[1, 0], false, 9⟩ :=
  rfl

/-- C5 witness: the silent pass-through at the concrete failing solver. -/
theorem max_sharpe_ratio_silent_on_failure_witness :
    (max_sharpe_ratio failingSolver [[1/100], [2/100]]).success = false ∧
      optimal_weights failingSolver [[1/100], [2/100]] = [1, 0] :=
  max_sharpe_ratio_silent_on_failure failingSolver [[1/100], [2/100]] rfl

/-- Lines 44–50 (and the slider at line 142): the dashboard computes the
optimal weights in a context where a risk-free rate has been configured
(`risk_free_rate = 0.01` at line 46, the slider percentage at line 142),
but `max_sharpe_ratio(returns)` receives only the return series. -/
noncomputable def dashboard_optimal_weights (risk_free_rate : ℚ)
    (minimize : Minimizer) (returns : List (List ℚ)) : List ℚ :=
  optimal_weights minimize returns

/-- C9: the optimizer's output never depends on the configured risk-free
rate — any two configurations yield identical weights — and the objective
handed to the solver is `negative_sharpe_ratio` at the hard-wired default
rate `0.01`. -/
theorem optimal_weights_rate_independent (minimize : Minimizer)
    (R : List (List ℚ)) (r₁ r₂ : ℚ) :
    dashboard_optimal_weights r₁ minimize R = dashboard_optimal_weights r₂ minimize R ∧
      max_sharpe_ratio minimize R =
        minimize (fun w => negative_sharpe_ratio w R (1/100))
          (List.replicate (nAssets R) (1 / (nAssets R : ℚ)))
          (List.replicate (nAssets R) (0, 1))
          (fun x => x.sum - 1) :=
  ⟨rfl, rfl⟩
